import Mathlib

/-!
Verification of the `clienttiming` package: a server-timing instrumented
HTTP round tripper.  The Go source is shallowly embedded: the timing
header collection is a list of metrics, pointer aliasing of the metric
created by `NewMetric` is modelled by in-place modification at its index,
and the external `go-server-timing` library operations (`NewMetric`,
`ParseHeader`, `Start`, `Stop`) are modelled from the spec at the
interface boundary.
-/

namespace ClientTiming

/-- An HTTP request, reduced to the fields the package reads:
`req.Host`, `req.Method` and `req.URL.Path`. -/
structure Request where
  host : String
  method : String
  urlPath : String
deriving DecidableEq, Repr

/-- An HTTP response, reduced to the fields the package reads:
`resp.StatusCode` and the value of the `Server-Timing` response header
(`resp.Header.Get(servertiming.HeaderKey)`; `""` when the header is absent,
matching Go's `http.Header.Get`). -/
structure Response where
  statusCode : Int
  timingHeader : String
deriving DecidableEq, Repr

/-- Go `error` values are represented by their message string
(`err.Error()`); `Option.none` is Go's `nil` error. -/
abbrev Err := String

/-- A `servertiming.Metric`.  `extra` models the `Extra map[string]string`
field: `none` is Go's `nil` map, `some l` an allocated map represented as
an association list (first binding of a key wins on lookup, assignment
overwrites in place).  `started`/`stopped` model the metric's
timing state machine (`Start`/`Stop` of the external library): `stopped`
records that an elapsed duration has been computed. -/
structure Metric where
  name : String
  desc : String
  extra : Option (List (String × String))
  started : Bool
  stopped : Bool
deriving DecidableEq, Repr

/-- A `servertiming.Header`: the ordered collection of metrics for one
incoming request (`Header.Metrics []*Metric`). -/
structure Header where
  metrics : List Metric
deriving DecidableEq, Repr

/-- Go map assignment `m[k] = v` on an association list: overwrite the
binding of `k` in place if present, otherwise append it. -/
def mapSet : List (String × String) → String → String → List (String × String)
  | [], k, v => [(k, v)]
  | (k', v') :: rest, k, v =>
    if k' = k then (k, v) :: rest else (k', v') :: mapSet rest k v

/-- Go map read `m[k]` on an association list. -/
def lookupKV : List (String × String) → String → Option String
  | [], _ => none
  | (k', v') :: rest, k => if k' = k then some v' else lookupKV rest k

/-- Modify the element at a given index of a list, if it exists.  This
models mutation through the `*Metric` pointer that `NewMetric` returned:
the pointee lives inside the collection. -/
def modifyAt : List α → Nat → (α → α) → List α
  | [], _, _ => []
  | a :: rest, 0, f => f a :: rest
  | a :: rest, n+1, f => a :: modifyAt rest n f

/-- Modelled from the spec: `Header.NewMetric` of the external
`go-server-timing` library ("appends a new TimingEntry (duration unset) to
the end of the collection and returns a handle").  The handle is the index
of the appended metric; the fresh metric carries only its name, its
`Extra` map is Go-`nil` and it is neither started nor stopped. -/
def Header.newMetric (h : Header) (name : String) : Header × Nat :=
  (⟨h.metrics ++ [{ name := name, desc := "", extra := none,
                    started := false, stopped := false }]⟩,
   h.metrics.length)

/-- The `clienttiming.Timer` configuration (file `timer.go`): inner round
tripper, metric-name function, description function, update function and
the source name. -/
structure Timer where
  inner : Request → Option Response × Option Err
  metric : Request → String
  desc : Request → String
  update : Metric → Option Response → Option Err → Metric
  name : String

/-- KeySource is the key in the metric in which the source name will be
stored (`const KeySource = "source"`). -/
def KeySource : String := "source"

/-- `DefaultMetric` sets the metric name as the request host:
`strings.Replace(req.Host, ":", ".", -1)`.  Pattern and replacement are
single characters, so replacing every occurrence is a character map. -/
def DefaultMetric (req : Request) : String :=
  ⟨req.host.data.map (fun c => if c = ':' then '.' else c)⟩

/-- `DefaultDesc` sets the metric description as the request method and
path: `fmt.Sprintf("%s %s", req.Method, req.URL.Path)`. -/
def DefaultDesc (req : Request) : String :=
  req.method ++ " " ++ req.urlPath

/-- `DefaultUpdate` sets the status code in the metric if there was no
error, otherwise it sets the error text.  The Go writes
`m.Extra["error"] = err.Error()` / `m.Extra["code"] = strconv.Itoa(resp.StatusCode)`
assume a non-nil map and a non-nil response on the success branch (the
round tripper guarantees both); on a Go-`nil` map or response this model
leaves the metric unchanged where Go would panic. -/
def DefaultUpdate (m : Metric) (resp : Option Response) (err : Option Err) : Metric :=
  match err with
  | some e => { m with extra := m.extra.map (fun l => mapSet l "error" e) }
  | none =>
    match resp with
    | some r => { m with extra := m.extra.map (fun l => mapSet l "code" (toString r.statusCode)) }
    | none => m

/-- The package's functional options (`WithName`, `WithTransport`,
`WithMetric`, `WithDesc`, `WithUpdate` in `timer.go`), enumerated. -/
inductive Opt where
  | withName (name : String)
  | withTransport (inner : Request → Option Response × Option Err)
  | withMetric (metric : Request → String)
  | withDesc (desc : Request → String)
  | withUpdate (update : Metric → Option Response → Option Err → Metric)

/-- Application of one option to a timer: each `With*` closure assigns the
corresponding field of the `*Timer` it receives. -/
def applyOpt (o : Opt) (t : Timer) : Timer :=
  match o with
  | .withName n => { t with name := n }
  | .withTransport f => { t with inner := f }
  | .withMetric f => { t with metric := f }
  | .withDesc f => { t with desc := f }
  | .withUpdate f => { t with update := f }

/-- The `for _, opt := range opts { opt(t) }` loop: options applied
sequentially, in order. -/
def applyOpts (opts : List Opt) (t : Timer) : Timer :=
  opts.foldl (fun t o => applyOpt o t) t

/-- Modelled from the spec: `http.DefaultTransport`, the external default
network transport that `New` installs as the inner round tripper.  Its
behaviour is opaque to this package; any fixed round-trip function
represents it. -/
def defaultInnerTransport : Request → Option Response × Option Err :=
  fun _ => (none, none)

/-- `New` builds the default timer (inner `http.DefaultTransport`, metric
`DefaultMetric`, desc `DefaultDesc`, update `DefaultUpdate`, zero-valued
name) and then applies the options in order. -/
def New (opts : List Opt) : Timer :=
  applyOpts opts
    { inner := defaultInnerTransport
      metric := DefaultMetric
      desc := DefaultDesc
      update := DefaultUpdate
      name := "" }

/-- The state of `Timer.Transport`: the shared base timer `*t` and the
per-call copy `tr.Timer` held by the new decorator. -/
structure TransportState where
  base : Timer
  tr : Timer

/-- `Timer.Transport`: `tr := &transport{Timer: *t, ...}` copies the base
timer into the decorator, then the loop `for _, opt := range opts
{ opt(&tr.Timer) }` applies each extra option to the copy held in `tr`;
the loop never touches the base. -/
def Timer.transportConfig (t : Timer) (opts : List Opt) : TransportState :=
  opts.foldl (fun s o => { s with tr := applyOpt o s.tr }) { base := t, tr := t }

/-- `Timer.Client` wraps the round tripper built by `Timer.Transport` in
an `http.Client`; the configuration it carries is the same. -/
def Timer.clientConfig (t : Timer) (opts : List Opt) : TransportState :=
  t.transportConfig opts

/-- Modelled from the spec: `servertiming.ParseHeader` of the external
library, the wire-format parser for the timing header ("parses the value
per the external timing-header wire format", tolerant of malformed input).
It is kept abstract: a parse function returns the ordered parsed metrics,
or `none` on parse failure. -/
abbrev ParseFn := String → Option (List Metric)

/-- `InsertMetrics` inserts into a servertiming header the metrics parsed
from an HTTP header of another request: on parse failure it returns
without touching the collection, otherwise
`h.Metrics = append(more.Metrics, h.Metrics...)` prepends the parsed
metrics before the metrics already in the collection. -/
def InsertMetrics (parse : ParseFn) (h : Header) (headerVal : String) : Header :=
  match parse headerVal with
  | none => h
  | some more => ⟨more ++ h.metrics⟩

/-- `transport.RoundTrip`, step by step over the collection state:
create the metric (`NewMetric` + `WithDesc`), allocate `Extra` if nil, tag
the source name if the timer has one, `Start`, delegate to the inner round
tripper, `Stop`, run the update function, and on success merge the
response's timing header via `InsertMetrics`.  On error it returns
`(nil, err)`.  (When the inner transport returns a nil response together
with a nil error, Go would dereference a nil pointer at
`resp.Header`; that case returns the collection unmerged here.) -/
def RoundTrip (t : Timer) (parse : ParseFn) (h : Header) (req : Request) :
    Header × (Option Response × Option Err) :=
  let (h1, i) := h.newMetric (t.metric req)
  let h2 : Header := ⟨modifyAt h1.metrics i (fun m => { m with desc := t.desc req })⟩
  let h3 : Header := ⟨modifyAt h2.metrics i (fun m =>
    if m.extra.isNone then { m with extra := some [] } else m)⟩
  let h4 : Header :=
    if t.name ≠ "" then
      ⟨modifyAt h3.metrics i (fun m =>
        { m with extra := some (mapSet (m.extra.getD []) KeySource t.name) })⟩
    else h3
  let h5 : Header := ⟨modifyAt h4.metrics i (fun m => { m with started := true })⟩
  let (resp?, err?) := t.inner req
  let h6 : Header := ⟨modifyAt h5.metrics i (fun m => { m with stopped := true })⟩
  let h7 : Header := ⟨modifyAt h6.metrics i (fun m => t.update m resp? err?)⟩
  match err? with
  | some e => (h7, (none, some e))
  | none =>
    match resp? with
    | some r => (InsertMetrics parse h7 r.timingHeader, (some r, none))
    | none => (h7, (none, none))

/-- The metric as it stands the moment `metric.Start()` runs: name and
description resolved, `Extra` allocated, source tag written when the timer
carries a name, timer not yet started. -/
def entryBeforeStart (t : Timer) (req : Request) : Metric :=
  let m0 : Metric := { name := t.metric req, desc := t.desc req,
                       extra := some [], started := false, stopped := false }
  if t.name ≠ "" then { m0 with extra := some (mapSet [] KeySource t.name) } else m0

/-- The metric as it is handed to the update function: started, stopped
(elapsed recorded), `Extra` still allocated. -/
def entryBeforeUpdate (t : Timer) (req : Request) : Metric :=
  { entryBeforeStart t req with started := true, stopped := true }

/-- The metric left in the collection by one round trip: the stopped entry
after the update function has seen the inner call's response and error. -/
def finalEntry (t : Timer) (req : Request)
    (resp? : Option Response) (err? : Option Err) : Metric :=
  t.update (entryBeforeUpdate t req) resp? err?

/-- Does the option assign the `name` field?  (Only `WithName` does.) -/
def Opt.setsName : Opt → Bool
  | .withName _ => true
  | _ => false

/-- Does the option assign the `inner` field?  (Only `WithTransport` does.) -/
def Opt.setsInner : Opt → Bool
  | .withTransport _ => true
  | _ => false

/-- Does the option assign the `metric` field?  (Only `WithMetric` does.) -/
def Opt.setsMetric : Opt → Bool
  | .withMetric _ => true
  | _ => false

/-- Does the option assign the `desc` field?  (Only `WithDesc` does.) -/
def Opt.setsDesc : Opt → Bool
  | .withDesc _ => true
  | _ => false

/-- Does the option assign the `update` field?  (Only `WithUpdate` does.) -/
def Opt.setsUpdate : Opt → Bool
  | .withUpdate _ => true
  | _ => false

/-- Sample request, as in the spec's default-metadata property. -/
def reqEx : Request := { host := "example.com:443", method := "GET", urlPath := "/v1/x" }

/-- Sample request to path `/a`. -/
def reqA : Request := { host := "golang.org", method := "GET", urlPath := "/a" }

/-- Sample request to path `/b`. -/
def reqB : Request := { host := "golang.org", method := "GET", urlPath := "/b" }

/-- Sample `200 OK` response carrying the given timing header value. -/
def respOK (hdr : String) : Response := { statusCode := 200, timingHeader := hdr }

/-- Sample nested metric `X`. -/
def mX : Metric :=
  { name := "github.com", desc := "POST /api", extra := some [("status", "201")],
    started := false, stopped := false }

/-- Sample nested metric `Y`. -/
def mY : Metric :=
  { name := "github.com", desc := "GET /api/v2", extra := some [("status", "404")],
    started := false, stopped := false }

/-- Sample pre-existing collection entry. -/
def mA : Metric :=
  { name := "golang.org", desc := "GET /x", extra := some [],
    started := true, stopped := true }

/-- Sample collection already holding one entry. -/
def hEx : Header := ⟨[mA]⟩

/-- Sample parse function: the well-formed value `"nested"` parses to
`[mX, mY]`, everything else is a parse failure. -/
def parseEx : ParseFn := fun s => if s = "nested" then some [mX, mY] else none

/-- Sample inner transport answering every request with a response whose
timing header carries the well-formed value `"nested"`. -/
def innerNested : Request → Option Response × Option Err :=
  fun _ => (some (respOK "nested"), none)

/-- Sample inner transport answering with an unparsable timing header. -/
def innerBad : Request → Option Response × Option Err :=
  fun _ => (some (respOK "bad;;;"), none)

/-- Sample inner transport answering with no timing header. -/
def innerPlain : Request → Option Response × Option Err :=
  fun _ => (some (respOK ""), none)

/-- Sample inner transport failing every request. -/
def innerErr : Request → Option Response × Option Err :=
  fun _ => (none, some "failed")

/-- Sample inner transport returning both a response and an error. -/
def innerBoth : Request → Option Response × Option Err :=
  fun _ => (some (respOK "nested"), some "failed")

theorem modifyAt_append_length (l : List α) (a : α) (f : α → α) :
    modifyAt (l ++ [a]) l.length f = l ++ [f a] := by
  induction l with
  | nil => rfl
  | cons x xs ih => simp [modifyAt, ih]

/-- Normal form of `RoundTrip`: all in-place modifications hit only the
freshly appended metric, so one call appends exactly `finalEntry` and, on
the success path, merges the response's timing header. -/
theorem RoundTrip_eq (t : Timer) (parse : ParseFn) (h : Header) (req : Request) :
    RoundTrip t parse h req =
      (match t.inner req with
       | (_, some e) =>
         (⟨h.metrics ++ [finalEntry t req (t.inner req).1 (some e)]⟩, (none, some e))
       | (some r, none) =>
         (InsertMetrics parse ⟨h.metrics ++ [finalEntry t req (some r) none]⟩ r.timingHeader,
          (some r, none))
       | (none, none) =>
         (⟨h.metrics ++ [finalEntry t req none none]⟩, (none, none))) := by
  rcases hr : t.inner req with ⟨resp?, err?⟩
  by_cases hn : t.name = "" <;>
    cases err? <;> cases resp? <;>
      simp [RoundTrip, Header.newMetric, hr, hn, modifyAt_append_length,
            finalEntry, entryBeforeUpdate, entryBeforeStart]

theorem lookupKV_mapSet_self (l : List (String × String)) (k v : String) :
    lookupKV (mapSet l k v) k = some v := by
  induction l with
  | nil => simp [mapSet, lookupKV]
  | cons p rest ih =>
    obtain ⟨k', v'⟩ := p
    by_cases hk : k' = k <;> simp [mapSet, lookupKV, hk, ih]

theorem InsertMetrics_metrics (parse : ParseFn) (h : Header) (v : String) :
    (InsertMetrics parse h v).metrics = ((parse v).getD []) ++ h.metrics := by
  cases hp : parse v <;> simp [InsertMetrics, hp]

theorem extra_entryBeforeStart (t : Timer) (req : Request) :
    (entryBeforeStart t req).extra
      = some (if t.name = "" then [] else mapSet [] KeySource t.name) := by
  by_cases hn : t.name = "" <;> simp [entryBeforeStart, hn]

theorem extra_entryBeforeUpdate (t : Timer) (req : Request) :
    (entryBeforeUpdate t req).extra
      = some (if t.name = "" then [] else mapSet [] KeySource t.name) := by
  simpa [entryBeforeUpdate] using extra_entryBeforeStart t req

theorem applyOpts_cons (o : Opt) (os : List Opt) (t : Timer) :
    applyOpts (o :: os) t = applyOpts os (applyOpt o t) := rfl

theorem applyOpts_append (a b : List Opt) (t : Timer) :
    applyOpts (a ++ b) t = applyOpts b (applyOpts a t) := by
  simp [applyOpts, List.foldl_append]

theorem name_stable (os : List Opt) (t : Timer)
    (h : ∀ o ∈ os, o.setsName = false) : (applyOpts os t).name = t.name := by
  induction os generalizing t with
  | nil => rfl
  | cons o os ih =>
    have ho := h o (List.mem_cons_self o os)
    have hrest : ∀ o' ∈ os, Opt.setsName o' = false :=
      fun o' hm => h o' (List.mem_cons_of_mem o hm)
    cases o <;> simp [Opt.setsName] at ho ⊢ <;>
      rw [applyOpts_cons] <;> rw [ih _ hrest] <;> rfl

theorem inner_stable (os : List Opt) (t : Timer)
    (h : ∀ o ∈ os, o.setsInner = false) : (applyOpts os t).inner = t.inner := by
  induction os generalizing t with
  | nil => rfl
  | cons o os ih =>
    have ho := h o (List.mem_cons_self o os)
    have hrest : ∀ o' ∈ os, Opt.setsInner o' = false :=
      fun o' hm => h o' (List.mem_cons_of_mem o hm)
    cases o <;> simp [Opt.setsInner] at ho ⊢ <;>
      rw [applyOpts_cons] <;> rw [ih _ hrest] <;> rfl

theorem metric_stable (os : List Opt) (t : Timer)
    (h : ∀ o ∈ os, o.setsMetric = false) : (applyOpts os t).metric = t.metric := by
  induction os generalizing t with
  | nil => rfl
  | cons o os ih =>
    have ho := h o (List.mem_cons_self o os)
    have hrest : ∀ o' ∈ os, Opt.setsMetric o' = false :=
      fun o' hm => h o' (List.mem_cons_of_mem o hm)
    cases o <;> simp [Opt.setsMetric] at ho ⊢ <;>
      rw [applyOpts_cons] <;> rw [ih _ hrest] <;> rfl

theorem desc_stable (os : List Opt) (t : Timer)
    (h : ∀ o ∈ os, o.setsDesc = false) : (applyOpts os t).desc = t.desc := by
  induction os generalizing t with
  | nil => rfl
  | cons o os ih =>
    have ho := h o (List.mem_cons_self o os)
    have hrest : ∀ o' ∈ os, Opt.setsDesc o' = false :=
      fun o' hm => h o' (List.mem_cons_of_mem o hm)
    cases o <;> simp [Opt.setsDesc] at ho ⊢ <;>
      rw [applyOpts_cons] <;> rw [ih _ hrest] <;> rfl

theorem update_stable (os : List Opt) (t : Timer)
    (h : ∀ o ∈ os, o.setsUpdate = false) : (applyOpts os t).update = t.update := by
  induction os generalizing t with
  | nil => rfl
  | cons o os ih =>
    have ho := h o (List.mem_cons_self o os)
    have hrest : ∀ o' ∈ os, Opt.setsUpdate o' = false :=
      fun o' hm => h o' (List.mem_cons_of_mem o hm)
    cases o <;> simp [Opt.setsUpdate] at ho ⊢ <;>
      rw [applyOpts_cons] <;> rw [ih _ hrest] <;> rfl

theorem transportFold_spec (opts : List Opt) (s : TransportState) :
    (opts.foldl (fun s o => { s with tr := applyOpt o s.tr }) s).base = s.base ∧
    (opts.foldl (fun s o => { s with tr := applyOpt o s.tr }) s).tr
      = applyOpts opts s.tr := by
  induction opts generalizing s with
  | nil => exact ⟨rfl, rfl⟩
  | cons o os ih =>
    simpa [applyOpts_cons] using ih { s with tr := applyOpt o s.tr }

/-- C1: for every header collection and every response whose timing header
parses to the ordered list `xs`, `InsertMetrics` — invoked at the end of a
successful `RoundTrip` — results in `xs` followed by all metrics that were
in the collection at merge time, both groups in their own order; during a
round trip the collection at merge time is the incoming collection plus
the entry created for the call. -/
theorem merge_splice_order (t : Timer) (parse : ParseFn) (h H : Header)
    (req : Request) (r : Response) (xs : List Metric)
    (hinner : t.inner req = (some r, none))
    (hparse : parse r.timingHeader = some xs) :
    (InsertMetrics parse H r.timingHeader).metrics = xs ++ H.metrics ∧
    (RoundTrip t parse h req).1.metrics
      = xs ++ (h.metrics ++ [finalEntry t req (some r) none]) := by
  constructor
  · simp [InsertMetrics, hparse]
  · rw [RoundTrip_eq]
    simp [hinner, InsertMetrics, hparse]

theorem merge_splice_order_witness :
    (New [Opt.withTransport innerNested]).inner reqA = (some (respOK "nested"), none) ∧
    parseEx (respOK "nested").timingHeader = some [mX, mY] ∧
    ((InsertMetrics parseEx hEx (respOK "nested").timingHeader).metrics
        = [mX, mY] ++ hEx.metrics ∧
     (RoundTrip (New [Opt.withTransport innerNested]) parseEx hEx reqA).1.metrics
        = [mX, mY] ++ (hEx.metrics
            ++ [finalEntry (New [Opt.withTransport innerNested]) reqA
                  (some (respOK "nested")) none])) :=
  ⟨rfl, by decide,
   merge_splice_order (New [Opt.withTransport innerNested]) parseEx hEx hEx reqA
     (respOK "nested") [mX, mY] rfl (by decide)⟩

/-- C2: when the response's timing header is absent (the external parser
yields no metrics for it) or fails to parse, the merge is a no-op: the
call still returns `(resp, nil)` and the collection gains exactly the one
entry created for the call, nothing else. -/
theorem parse_failure_noop (t : Timer) (parse : ParseFn) (h : Header)
    (req : Request) (r : Response)
    (hinner : t.inner req = (some r, none))
    (hparse : parse r.timingHeader = none ∨ parse r.timingHeader = some []) :
    RoundTrip t parse h req
      = (⟨h.metrics ++ [finalEntry t req (some r) none]⟩, (some r, none)) := by
  rw [RoundTrip_eq]
  rcases hparse with hp | hp <;> simp [hinner, InsertMetrics, hp]

theorem parse_failure_noop_witness :
    (New [Opt.withTransport innerBad]).inner reqA = (some (respOK "bad;;;"), none) ∧
    (parseEx (respOK "bad;;;").timingHeader = none ∨
     parseEx (respOK "bad;;;").timingHeader = some []) ∧
    RoundTrip (New [Opt.withTransport innerBad]) parseEx hEx reqA
      = (⟨hEx.metrics ++ [finalEntry (New [Opt.withTransport innerBad]) reqA
            (some (respOK "bad;;;")) none]⟩, (some (respOK "bad;;;"), none)) :=
  ⟨rfl, Or.inl (by decide),
   parse_failure_noop (New [Opt.withTransport innerBad]) parseEx hEx reqA
     (respOK "bad;;;") rfl (Or.inl (by decide))⟩

/-- C3: when the inner transport fails with error `e` (and nil response),
the decorated round trip returns the same error (and nil response), no
merge of nested timing headers is attempted (the resulting collection is
exactly the old one plus the call's entry, independent of the parser), and
under the default update function the entry's `error` attribute equals the
error message. -/
theorem error_path (t : Timer) (parse : ParseFn) (h : Header)
    (req : Request) (e : Err)
    (hinner : t.inner req = (none, some e)) :
    (RoundTrip t parse h req).2 = (none, some e) ∧
    (RoundTrip t parse h req).1 = ⟨h.metrics ++ [finalEntry t req none (some e)]⟩ ∧
    (t.update = DefaultUpdate →
      lookupKV ((finalEntry t req none (some e)).extra.getD []) "error" = some e) := by
  refine ⟨?_, ?_, ?_⟩
  · rw [RoundTrip_eq]; simp [hinner]
  · rw [RoundTrip_eq]; simp [hinner]
  · intro hu
    simp [finalEntry, hu, DefaultUpdate, extra_entryBeforeUpdate, lookupKV_mapSet_self]

theorem error_path_witness :
    (New [Opt.withTransport innerErr]).inner reqA = (none, some "failed") ∧
    ((RoundTrip (New [Opt.withTransport innerErr]) parseEx hEx reqA).2
        = (none, some "failed") ∧
     (RoundTrip (New [Opt.withTransport innerErr]) parseEx hEx reqA).1
        = ⟨hEx.metrics ++ [finalEntry (New [Opt.withTransport innerErr]) reqA
             none (some "failed")]⟩ ∧
     ((New [Opt.withTransport innerErr]).update = DefaultUpdate →
       lookupKV ((finalEntry (New [Opt.withTransport innerErr]) reqA
           none (some "failed")).extra.getD []) "error" = some "failed")) :=
  ⟨rfl,
   error_path (New [Opt.withTransport innerErr]) parseEx hEx reqA "failed" rfl⟩

/-- C5: `Timer.Transport` (and `Timer.Client`) applies the per-call
options to the copy of the base timer held by the new decorator: after
creating a per-call decorator the shared base timer — every one of its
fields — is unchanged, and the overrides land only on the decorator's own
configuration. -/
theorem transport_copies_base (t : Timer) (opts : List Opt) :
    (t.transportConfig opts).base = t ∧
    (t.clientConfig opts).base = t ∧
    (t.transportConfig opts).base.inner = t.inner ∧
    (t.transportConfig opts).base.metric = t.metric ∧
    (t.transportConfig opts).base.desc = t.desc ∧
    (t.transportConfig opts).base.update = t.update ∧
    (t.transportConfig opts).base.name = t.name ∧
    (t.transportConfig opts).tr = applyOpts opts t := by
  have h := transportFold_spec opts { base := t, tr := t }
  exact ⟨h.1, h.1, by rw [show (t.transportConfig opts).base = t from h.1],
         by rw [show (t.transportConfig opts).base = t from h.1],
         by rw [show (t.transportConfig opts).base = t from h.1],
         by rw [show (t.transportConfig opts).base = t from h.1],
         by rw [show (t.transportConfig opts).base = t from h.1], h.2⟩

/-- C6: a successful round trip adds exactly one entry attributable to the
call (whatever nested data gets merged), and two sequential calls A then B
with no nested data leave the collection in append order `[.., A, B]`. -/
theorem one_entry_and_append_order (t : Timer) (parse : ParseFn) (h : Header)
    (reqFst reqSnd : Request) (rFst rSnd : Response)
    (hA : t.inner reqFst = (some rFst, none))
    (hB : t.inner reqSnd = (some rSnd, none))
    (hpA : parse rFst.timingHeader = none ∨ parse rFst.timingHeader = some [])
    (hpB : parse rSnd.timingHeader = none ∨ parse rSnd.timingHeader = some []) :
    (∀ (h' : Header) (req : Request) (r : Response), t.inner req = (some r, none) →
      (RoundTrip t parse h' req).1.metrics
        = ((parse r.timingHeader).getD [])
            ++ (h'.metrics ++ [finalEntry t req (some r) none])) ∧
    (RoundTrip t parse (RoundTrip t parse h reqFst).1 reqSnd).1.metrics
      = h.metrics ++ [finalEntry t reqFst (some rFst) none,
                      finalEntry t reqSnd (some rSnd) none] := by
  have key : ∀ (h' : Header) (req : Request) (r : Response),
      t.inner req = (some r, none) →
      (RoundTrip t parse h' req).1.metrics
        = ((parse r.timingHeader).getD [])
            ++ (h'.metrics ++ [finalEntry t req (some r) none]) := by
    intro h' req r hr
    rw [RoundTrip_eq]
    simp [hr, InsertMetrics_metrics]
  refine ⟨key, ?_⟩
  rcases hpA with hp1 | hp1 <;> rcases hpB with hp2 | hp2 <;>
    simp [key _ _ _ hB, key _ _ _ hA, hp1, hp2]

theorem one_entry_and_append_order_witness :
    (New [Opt.withTransport innerPlain]).inner reqA = (some (respOK ""), none) ∧
    (New [Opt.withTransport innerPlain]).inner reqB = (some (respOK ""), none) ∧
    (parseEx (respOK "").timingHeader = none ∨
     parseEx (respOK "").timingHeader = some []) ∧
    (RoundTrip (New [Opt.withTransport innerPlain]) parseEx
        (RoundTrip (New [Opt.withTransport innerPlain]) parseEx hEx reqA).1
        reqB).1.metrics
      = hEx.metrics
          ++ [finalEntry (New [Opt.withTransport innerPlain]) reqA (some (respOK "")) none,
              finalEntry (New [Opt.withTransport innerPlain]) reqB (some (respOK "")) none] :=
  ⟨rfl, rfl, Or.inl (by decide),
   (one_entry_and_append_order (New [Opt.withTransport innerPlain]) parseEx hEx
      reqA reqB (respOK "") (respOK "") rfl rfl
      (Or.inl (by decide)) (Or.inl (by decide))).2⟩

/-- C7: under the default configuration the entry's name is the request
host with every `:` replaced by `.`, its description is the method, a
space, and the URL path, and after the call its attributes carry
`error` = the error message when the inner call errored, otherwise
`code` = the decimal string of the response status code. -/
theorem default_metadata (t : Timer) (req : Request)
    (resp? : Option Response) (err? : Option Err)
    (hm : t.metric = DefaultMetric) (hd : t.desc = DefaultDesc)
    (hu : t.update = DefaultUpdate) :
    (finalEntry t req resp? err?).name
      = ⟨req.host.data.map (fun c => if c = ':' then '.' else c)⟩ ∧
    (finalEntry t req resp? err?).desc = req.method ++ " " ++ req.urlPath ∧
    (∀ e, err? = some e →
      lookupKV ((finalEntry t req resp? err?).extra.getD []) "error" = some e) ∧
    (∀ r, err? = none → resp? = some r →
      lookupKV ((finalEntry t req resp? err?).extra.getD []) "code"
        = some (toString r.statusCode)) := by
  refine ⟨?_, ?_, ?_, ?_⟩
  · cases err? <;> cases resp? <;> by_cases hn : t.name = "" <;>
      simp [finalEntry, hu, hm, DefaultUpdate, DefaultMetric,
            entryBeforeUpdate, entryBeforeStart, hn]
  · cases err? <;> cases resp? <;> by_cases hn : t.name = "" <;>
      simp [finalEntry, hu, hd, DefaultUpdate, DefaultDesc,
            entryBeforeUpdate, entryBeforeStart, hn]
  · intro e he
    subst he
    simp [finalEntry, hu, DefaultUpdate, extra_entryBeforeUpdate, lookupKV_mapSet_self]
  · intro r he hr
    subst he
    subst hr
    simp [finalEntry, hu, DefaultUpdate, extra_entryBeforeUpdate, lookupKV_mapSet_self]

theorem default_metadata_witness :
    (New []).metric = DefaultMetric ∧
    (New []).desc = DefaultDesc ∧
    (New []).update = DefaultUpdate ∧
    (finalEntry (New []) reqEx (some (respOK "")) none).name = "example.com.443" ∧
    (finalEntry (New []) reqEx (some (respOK "")) none).desc = "GET /v1/x" ∧
    lookupKV ((finalEntry (New []) reqEx (some (respOK "")) none).extra.getD [])
      "code" = some "200" := by
  have hmain := default_metadata (New []) reqEx (some (respOK "")) none rfl rfl rfl
  refine ⟨rfl, rfl, rfl, ?_, ?_, ?_⟩
  · rw [hmain.1]; decide
  · rw [hmain.2.1]; decide
  · rw [hmain.2.2.2 (respOK "") rfl rfl]; decide

/-- C8: the entry's attributes map is allocated (non-nil) before any code
that may write into it runs — both at the moment the timer starts and at
the moment the update function receives the entry — and when the timer
carries a non-empty source name, the `source` attribute equals that name
already before the timer is started. -/
theorem extra_invariant (t : Timer) (req : Request) :
    ((entryBeforeStart t req).extra).isSome = true ∧
    ((entryBeforeUpdate t req).extra).isSome = true ∧
    (entryBeforeStart t req).started = false ∧
    (t.name ≠ "" →
      lookupKV ((entryBeforeStart t req).extra.getD []) KeySource = some t.name) := by
  refine ⟨?_, ?_, ?_, ?_⟩
  · simp [extra_entryBeforeStart]
  · simp [extra_entryBeforeUpdate]
  · by_cases hn : t.name = "" <;> simp [entryBeforeStart, hn]
  · intro hn
    simp [extra_entryBeforeStart, hn, lookupKV_mapSet_self]

theorem extra_invariant_witness :
    (New [Opt.withName "svc"]).name ≠ "" ∧
    lookupKV ((entryBeforeStart (New [Opt.withName "svc"]) reqA).extra.getD [])
      KeySource = some (New [Opt.withName "svc"]).name :=
  ⟨by decide,
   (extra_invariant (New [Opt.withName "svc"]) reqA).2.2.2 (by decide)⟩

/-- C9: when the inner transport returns a non-nil response together with
a non-nil error, the error wins: the round trip returns `(nil, err)`,
skips the merge (the collection is the old one plus the call's entry,
independent of the parser), the entry is stopped, and the update function
is invoked with both the non-nil response and the non-nil error. -/
theorem resp_and_error_path (t : Timer) (parse : ParseFn) (h : Header)
    (req : Request) (r : Response) (e : Err)
    (hinner : t.inner req = (some r, some e)) :
    (RoundTrip t parse h req).2 = (none, some e) ∧
    (RoundTrip t parse h req).1
      = ⟨h.metrics ++ [t.update (entryBeforeUpdate t req) (some r) (some e)]⟩ ∧
    (entryBeforeUpdate t req).stopped = true := by
  refine ⟨?_, ?_, ?_⟩
  · rw [RoundTrip_eq]; simp [hinner]
  · rw [RoundTrip_eq]; simp [hinner, finalEntry]
  · simp [entryBeforeUpdate]

theorem resp_and_error_path_witness :
    (New [Opt.withTransport innerBoth]).inner reqA
      = (some (respOK "nested"), some "failed") ∧
    ((RoundTrip (New [Opt.withTransport innerBoth]) parseEx hEx reqA).2
        = (none, some "failed") ∧
     (RoundTrip (New [Opt.withTransport innerBoth]) parseEx hEx reqA).1
        = ⟨hEx.metrics ++ [(New [Opt.withTransport innerBoth]).update
             (entryBeforeUpdate (New [Opt.withTransport innerBoth]) reqA)
             (some (respOK "nested")) (some "failed")]⟩ ∧
     (entryBeforeUpdate (New [Opt.withTransport innerBoth]) reqA).stopped = true) :=
  ⟨rfl,
   resp_and_error_path (New [Opt.withTransport innerBoth]) parseEx hEx reqA
     (respOK "nested") "failed" rfl⟩

/-- C10: options are applied sequentially in the order given, so for every
configuration field the last option that sets it wins; and options passed
to `Transport` are applied after the base timer is copied, so a per-call
`WithName` replaces the base-construction name for that call scope. -/
theorem options_last_wins (t : Timer) (os1 os2 : List Opt) :
    ((∀ o ∈ os2, o.setsName = false) →
      ∀ n, (applyOpts (os1 ++ Opt.withName n :: os2) t).name = n) ∧
    ((∀ o ∈ os2, o.setsInner = false) →
      ∀ f, (applyOpts (os1 ++ Opt.withTransport f :: os2) t).inner = f) ∧
    ((∀ o ∈ os2, o.setsMetric = false) →
      ∀ f, (applyOpts (os1 ++ Opt.withMetric f :: os2) t).metric = f) ∧
    ((∀ o ∈ os2, o.setsDesc = false) →
      ∀ f, (applyOpts (os1 ++ Opt.withDesc f :: os2) t).desc = f) ∧
    ((∀ o ∈ os2, o.setsUpdate = false) →
      ∀ f, (applyOpts (os1 ++ Opt.withUpdate f :: os2) t).update = f) ∧
    (∀ os n, ((New os).transportConfig (os1 ++ [Opt.withName n])).tr.name = n) := by
  refine ⟨?_, ?_, ?_, ?_, ?_, ?_⟩
  · intro hstable n
    rw [applyOpts_append, applyOpts_cons, name_stable os2 _ hstable]
    rfl
  · intro hstable f
    rw [applyOpts_append, applyOpts_cons, inner_stable os2 _ hstable]
    rfl
  · intro hstable f
    rw [applyOpts_append, applyOpts_cons, metric_stable os2 _ hstable]
    rfl
  · intro hstable f
    rw [applyOpts_append, applyOpts_cons, desc_stable os2 _ hstable]
    rfl
  · intro hstable f
    rw [applyOpts_append, applyOpts_cons, update_stable os2 _ hstable]
    rfl
  · intro os n
    show (List.foldl (fun s o => { s with tr := applyOpt o s.tr })
      ({ base := New os, tr := New os } : TransportState)
      (os1 ++ [Opt.withName n])).tr.name = n
    rw [(transportFold_spec (os1 ++ [Opt.withName n])
          { base := New os, tr := New os }).2]
    rw [applyOpts_append, applyOpts_cons]
    rfl

theorem options_last_wins_witness :
    (applyOpts [Opt.withName "a", Opt.withName "b"] (New [])).name = "b" ∧
    ((New [Opt.withName "base"]).transportConfig [Opt.withName "other-name"]).tr.name
      = "other-name" :=
  ⟨(options_last_wins (New []) [Opt.withName "a"] []).1 (by simp) "b",
   (options_last_wins (New [Opt.withName "base"]) [] []).2.2.2.2.2
     [Opt.withName "base"] "other-name"⟩

end ClientTiming
